import Mathlib

/-!
A shallow embedding of the go-vobsub VobSub (DVD subtitle) decoder.

Bytes are modelled as `Nat` values (callers supply values `< 256` where it
matters); byte slices are `List Nat`; `time.Duration` values are nanosecond
counts (`Nat` or `Int` as appropriate).  Go runtime panics (out-of-range
indexing, slicing with reversed bounds, `make` with a negative length, nil
pointer dereference) are modelled by an explicit `panic` outcome, distinct
from the `error` return values of the Go code.  Loops of the Go source whose
termination is not structural are modelled with an explicit fuel parameter:
`none` means the fuel ran out while the Go loop was still running.
-/

namespace VobSub

/-- One `time.Second` in nanoseconds (`time.Duration` is a nanosecond count). -/
def second : Nat := 1000000000

/-- `PTSDTSClockFrequency` from the source: the 90 kHz PTS/DTS clock. -/
def PTSDTSClockFrequency : Nat := 90000

/-- `100 * time.Millisecond` in nanoseconds, used by the `Decode` post-pass. -/
def hundredMs : Int := 100000000

/-!  ### PES extension data (`def_pes.go`)  -/

/-- `PESExtensionData`: the dynamic data contained in the PES extension.
Nil Go slices are empty lists (both have length 0, which is all the code
ever observes). -/
structure PESExtensionData where
  PTS : List Nat := []
  DTS : List Nat := []
  ESCR : List Nat := []
  ESRate : List Nat := []
  AdditionalCopyInfo : Option Nat := none
  PreviousPacketCRC : List Nat := []
  PrivateData : List Nat := []
  PackHeaderField : Option Nat := none
  ProgramPacketSequenceCounter : List Nat := []
  PSTD : List Nat := []
  PESExtensionSecond : List Nat := []
  deriving DecidableEq

/-- `ComputePTS` computes the Presentation Time Stamp value.  The Go code
returns 0 for an empty `PTS` slice and otherwise indexes `PTS[0]..PTS[4]`;
a slice of length 1..4 would make it panic, modelled by `none`. -/
def PESExtensionData.ComputePTS (pesed : PESExtensionData) : Option Nat :=
  match pesed.PTS with
  | [] => some 0
  | b0 :: b1 :: b2 :: b3 :: b4 :: _ =>
    some ((((b0 &&& 0b00001110) >>> 1) <<< 30 |||
       b1 <<< 22 |||
       ((b2 &&& 0b11111110) >>> 1) <<< 15 |||
       b3 <<< 7 |||
       ((b4 &&& 0b11111110) >>> 1)) * second / PTSDTSClockFrequency)
  | _ => none

/-- `ComputeDTS` computes the Decode Time Stamp value.  The Go body is a
verbatim copy of `ComputePTS`: it reads `pesed.PTS`, never `pesed.DTS`. -/
def PESExtensionData.ComputeDTS (pesed : PESExtensionData) : Option Nat :=
  match pesed.PTS with
  | [] => some 0
  | b0 :: b1 :: b2 :: b3 :: b4 :: _ =>
    some ((((b0 &&& 0b00001110) >>> 1) <<< 30 |||
       b1 <<< 22 |||
       ((b2 &&& 0b11111110) >>> 1) <<< 15 |||
       b3 <<< 7 |||
       ((b4 &&& 0b11111110) >>> 1)) * second / PTSDTSClockFrequency)
  | _ => none

/-- The bit field of `b` spanning bits `hi..lo` (inclusive), as the spec
describes bit extraction. -/
def bitField (b hi lo : Nat) : Nat := (b >>> lo) % 2 ^ (hi - lo + 1)

/-- The 33-bit PTS tick count as the spec words it: bits 3..1 of byte 0 go to
result bits 32..30, byte 1 to bits 29..22, bits 7..1 of byte 2 to bits 21..15,
byte 3 to bits 14..7 and bits 7..1 of byte 4 to bits 6..0. -/
def ptsTicksSpec (b0 b1 b2 b3 b4 : Nat) : Nat :=
  bitField b0 3 1 * 2 ^ 30 + bitField b1 7 0 * 2 ^ 22 + bitField b2 7 1 * 2 ^ 15 +
    bitField b3 7 0 * 2 ^ 7 + bitField b4 7 1

/-!  ### PES extension header and extension-data parsing (`def_pes.go`)  -/

/-- `PESExtension`: three header bytes of flags plus the parsed data. -/
structure PESExtension where
  Header0 : Nat := 0
  Header1 : Nat := 0
  Header2 : Nat := 0
  Data : PESExtensionData := {}
  deriving DecidableEq

/-- `PTSDTSPresence`: the two top bits of the second flag byte. -/
def PESExtension.PTSDTSPresence (poh : PESExtension) : Nat := poh.Header1 >>> 6

/-- `ESCRPresent`. -/
def PESExtension.ESCRPresent (poh : PESExtension) : Bool :=
  (poh.Header1 &&& 0b00100000) >>> 5 == 1

/-- `ESRatePresent`. -/
def PESExtension.ESRatePresent (poh : PESExtension) : Bool :=
  (poh.Header1 &&& 0b00010000) >>> 4 == 1

/-- `AdditionalCopyInfoPresent`. -/
def PESExtension.AdditionalCopyInfoPresent (poh : PESExtension) : Bool :=
  (poh.Header1 &&& 0b00000100) >>> 2 == 1

/-- `CRCPresent`. -/
def PESExtension.CRCPresent (poh : PESExtension) : Bool :=
  (poh.Header1 &&& 0b00000010) >>> 1 == 1

/-- `SecondExtensionPresent`. -/
def PESExtension.SecondExtensionPresent (poh : PESExtension) : Bool :=
  poh.Header1 &&& 0b00000001 == 1

/-- `RemainingHeaderLength`: the third header byte. -/
def PESExtension.RemainingHeaderLength (poh : PESExtension) : Nat := poh.Header2

/-- Read `k` bytes `data[index..index+k)`; `none` models the Go panic
(index out of range) raised when any of them is missing. -/
def readBytes (data : List Nat) (index k : Nat) : Option (List Nat) :=
  if index + k ≤ data.length then some ((data.drop index).take k) else none

/-- Read an optional fixed-size field: when `present`, consume `k` bytes
(`none` = Go panic); when absent, consume nothing. -/
def parseField (present : Bool) (k : Nat) (data : List Nat) (index : Nat) :
    Option (Option (List Nat) × Nat) :=
  if present then
    match readBytes data index k with
    | none => none
    | some bytes => some (some bytes, index + k)
  else some (none, index)

/-- Overwrite the first `src.length` entries of `dst` with `src`
(the effect of the Go loop `dst[i] = src[i]` when it stays in bounds). -/
def writePrefix (dst src : List Nat) : List Nat := src ++ dst.drop src.length

/-- Error identities of the PES extension-data parser. -/
inductive PesError where
  | lengthMismatch
  | copyInfoFixedBit
  | secondExtFixedBits
  | invalidPadding
  deriving DecidableEq

/-- Outcome of `ParsePESExtensionData`: parsed extension and final index,
an error, or a Go runtime panic. -/
inductive ExtParseOutcome where
  | ok (pese : PESExtension) (index : Nat)
  | err (e : PesError)
  | panic
  deriving DecidableEq

/-- The second-extension tail of `ParsePESExtensionData` (after the
`PES extension flag` byte `headers` has been read at `index - 1`).
Faithful to the source, including the final loop that allocates
`Data.PESExtensionSecond` but writes the bytes into `Data.PSTD`. -/
def parseSecondExtension (d : PESExtensionData) (data : List Nat) (headers index : Nat) :
    ExtParseOutcome :=
  match parseField (headers &&& 0b10000000 == 0b10000000) 16 data index with
  | none => .panic
  | some (privBytes, i1) =>
    let d1 := match privBytes with
      | some bs => { d with PrivateData := bs }
      | none => d
    match parseField (headers &&& 0b01000000 == 0b01000000) 1 data i1 with
    | none => .panic
    | some (phfBytes, i2) =>
      let d2 := match phfBytes with
        | some bs => { d1 with PackHeaderField := some (bs.getD 0 0) }
        | none => d1
      match parseField (headers &&& 0b00100000 == 0b00100000) 2 data i2 with
      | none => .panic
      | some (ppscBytes, i3) =>
        let d3 := match ppscBytes with
          | some bs => { d2 with ProgramPacketSequenceCounter := bs }
          | none => d2
        match parseField (headers &&& 0b00010000 == 0b00010000) 2 data i3 with
        | none => .panic
        | some (pstdBytes, i4) =>
          let d4 := match pstdBytes with
            | some bs => { d3 with PSTD := bs }
            | none => d3
          if headers &&& 0b00001110 ≠ 0b00001110 then .err .secondExtFixedBits
          else if headers &&& 0b00000001 == 0b00000001 then
            match readBytes data i4 2 with
            | none => .panic
            | some hdr =>
              let additionnalDataLen := hdr.getD 0 0 &&& 0b01111111
              let i5 := i4 + 2
              -- Go: `pese.Data.PESExtensionSecond = make([]byte, additionnalDataLen)`
              -- then `for i := range additionnalDataLen { pese.Data.PSTD[i] = data[index+i] }`
              if additionnalDataLen ≤ d4.PSTD.length ∧ i5 + additionnalDataLen ≤ data.length then
                .ok { Header0 := 0, Header1 := 0, Header2 := 0,
                      Data := { d4 with
                        PESExtensionSecond := List.replicate additionnalDataLen 0,
                        PSTD := writePrefix d4.PSTD ((data.drop i5).take additionnalDataLen) } }
                   (i5 + additionnalDataLen)
              else .panic
          else .ok { Header0 := 0, Header1 := 0, Header2 := 0, Data := d4 } i4

/-- `ParsePESExtensionData` over the extension-data slice.  The returned
`PESExtension` carries the updated `Data`; the header bytes of the result
are repopulated by the caller (`withData` below) since the Go method
mutates only `pese.Data`. -/
def parsePESExtensionDataCore (pese : PESExtension) (data : List Nat) : ExtParseOutcome :=
  if data.length ≠ pese.RemainingHeaderLength then .err .lengthMismatch
  else
    match parseField (pese.PTSDTSPresence &&& 0b10 == 0b10) 5 data 0 with
    | none => .panic
    | some (ptsBytes, i1) =>
      let d1 := match ptsBytes with
        | some bs => { pese.Data with PTS := bs }
        | none => pese.Data
      match parseField (pese.PTSDTSPresence &&& 0b01 == 0b01) 5 data i1 with
      | none => .panic
      | some (dtsBytes, i2) =>
        let d2 := match dtsBytes with
          | some bs => { d1 with DTS := bs }
          | none => d1
        match parseField pese.ESCRPresent 6 data i2 with
        | none => .panic
        | some (escrBytes, i3) =>
          let d3 := match escrBytes with
            | some bs => { d2 with ESCR := bs }
            | none => d2
          match parseField pese.ESRatePresent 3 data i3 with
          | none => .panic
          | some (esRateBytes, i4) =>
            let d4 := match esRateBytes with
              | some bs => { d3 with ESRate := bs }
              | none => d3
            match
              (if pese.AdditionalCopyInfoPresent then
                match data.get? i4 with
                | none => Sum.inr ExtParseOutcome.panic
                | some b =>
                  if b &&& 0b10000000 ≠ 0b10000000 then
                    Sum.inr (ExtParseOutcome.err .copyInfoFixedBit)
                  else Sum.inl ({ d4 with AdditionalCopyInfo := some (b &&& 0b01111111) }, i4 + 1)
              else Sum.inl (d4, i4)) with
            | Sum.inr out => out
            | Sum.inl (d5, i5) =>
              match parseField pese.CRCPresent 2 data i5 with
              | none => .panic
              | some (crcBytes, i6) =>
                let d6 := match crcBytes with
                  | some bs => { d5 with PreviousPacketCRC := bs }
                  | none => d5
                if ¬ pese.SecondExtensionPresent then
                  .ok { Header0 := 0, Header1 := 0, Header2 := 0, Data := d6 } i6
                else
                  match data.get? i6 with
                  | none => .panic
                  | some headers => parseSecondExtension d6 data headers (i6 + 1)

/-- Reattach the original header bytes to the parsed result (the Go method
mutates `pese.Data` in place and leaves the header untouched). -/
def parsePESExtensionData (pese : PESExtension) (data : List Nat) : ExtParseOutcome :=
  match parsePESExtensionDataCore pese data with
  | .ok pese' index =>
    .ok { Header0 := pese.Header0, Header1 := pese.Header1, Header2 := pese.Header2,
          Data := pese'.Data } index
  | out => out

/-- Outcome of the high-level `ParseExtensionData` wrapper. -/
inductive ExtDataOutcome where
  | ok (pese : PESExtension)
  | err (e : PesError)
  | panic
  deriving DecidableEq

/-- `PESHeader.ParseExtensionData`: parse the extension data, then require
every remaining byte of the extension-data area to be `0xFF` padding. -/
def parseExtensionData (pese : PESExtension) (data : List Nat) : ExtDataOutcome :=
  match parsePESExtensionData pese data with
  | .panic => .panic
  | .err e => .err e
  | .ok pese' index =>
    if (data.drop index).all (fun b => b == 0xFF) then .ok pese'
    else .err .invalidPadding

/-!  ### PES headers and packets (`def_pes.go`)  -/

/-- `PESHeader`: 4-byte MPEG start-code header, 2-byte packet length,
optional extension and the private-stream sub-stream id byte. -/
structure PESHeader where
  MPH : List Nat := []
  PacketLength : Nat × Nat := (0, 0)
  Extension : Option PESExtension := none
  SubStreamID : Nat := 0
  deriving DecidableEq

/-- `GetPacketLength`: big-endian 16-bit packet length. -/
def PESHeader.GetPacketLength (pesh : PESHeader) : Nat :=
  pesh.PacketLength.1 <<< 8 ||| pesh.PacketLength.2

/-- `PESPacket`: headers plus payload. -/
structure PESPacket where
  Header : PESHeader := {}
  Payload : List Nat := []
  deriving DecidableEq

/-!  ### MPEG and pack headers (`idx.go`, `def_pack.go`)  -/

/-- `MPEGHeader.Validate`: the first three of the four bytes must be the
start-code marker `00 00 01` (`BigEndian.Uint32(mph) >> 8 == 0x000001`). -/
def mpegHeaderValidate (mph : List Nat) : Bool :=
  match mph with
  | [b0, b1, b2, b3] => (b0 <<< 24 ||| b1 <<< 16 ||| b2 <<< 8 ||| b3) >>> 8 == 0x000001
  | _ => false

/-- `MPEGHeader.StreamID`: the fourth byte. -/
def mpegHeaderStreamID (mph : List Nat) : Nat := mph.getD 3 0

/-- `PackHeader.Validate` over the 4 start-code bytes and the 10 remaining
bytes: fixed SCR bits, fixed marker bits and a nonzero program mux rate. -/
def packHeaderValidate (mph remaining : List Nat) : Bool :=
  match remaining with
  | [r0, _r1, r2, _r3, r4, r5, r6, r7, r8, _r9] =>
    mpegHeaderValidate mph &&
    (mpegHeaderStreamID mph == 0xBA) &&
    (r0 >>> 6 == 0b01) &&
    ((r0 &&& 0b00000100) >>> 2 == 0b1) &&
    ((r2 &&& 0b00000100) >>> 2 == 0b1) &&
    ((r4 &&& 0b00000100) >>> 2 == 0b1) &&
    (r5 &&& 0b00000001 == 0b1) &&
    (r8 &&& 0b00000011 == 0b11) &&
    ((r6 <<< 14 ||| r7 <<< 6 ||| r8 >>> 2) != 0)
  | _ => false

/-- `PackHeader.StuffingBytesLength`: low three bits of the last byte. -/
def packHeaderStuffingLength (remaining : List Nat) : Nat :=
  remaining.getD 9 0 &&& 0b00000111

/-!  ### The stream packetizer (`StreamParsePacket` and helpers)  -/

/-- Outcome of one packetizer step: `ok packet nextAt` with `err = nil`
(`packet = none` models the zero-value `PESPacket` the Go code returns on
the padding / program-end / EOF paths, which the caller filters out by
stream id), a returned error, or a Go runtime panic. -/
inductive SPPOutcome where
  | ok (packet : Option PESPacket) (nextAt : Int)
  | err
  | panic
  deriving DecidableEq

/-- Outcome of the private-stream-1 sub-parser. -/
inductive P1Outcome where
  | ok (packet : PESPacket)
  | err
  | panic
  deriving DecidableEq

/-- `streamParsePESPrivateStream1Packet`: read the 3-byte extension header,
the extension data, the sub-stream id and the payload. -/
def streamParsePESPrivateStream1Packet (src : List Nat) (pos : Nat) (preHeader : PESHeader) :
    P1Outcome :=
  match src.get? pos, src.get? (pos + 1), src.get? (pos + 2) with
  | some h0, some h1, some h2 =>
    let pese : PESExtension := { Header0 := h0, Header1 := h1, Header2 := h2 }
    let pos1 := pos + 3
    if src.length < pos1 + pese.RemainingHeaderLength then .err
    else
      let extData := (src.drop pos1).take pese.RemainingHeaderLength
      let pos2 := pos1 + pese.RemainingHeaderLength
      match parseExtensionData pese extData with
      | .panic => .panic
      | .err _ => .err
      | .ok pese' =>
        match src.get? pos2 with
        | none => .err
        | some ssid =>
          let pos3 := pos2 + 1
          let packetLength := PESHeader.GetPacketLength preHeader
          -- Go: payloadLen := packetLength - 3 - extLen - 1 (a signed int);
          -- `make([]byte, payloadLen)` panics when it is negative
          if (packetLength : Int) - 3 - (pese.RemainingHeaderLength : Int) - 1 < 0 then .panic
          else
            let payloadLen := packetLength - 3 - pese.RemainingHeaderLength - 1
            if src.length < pos3 + payloadLen then .err
            else
              .ok { Header := { preHeader with Extension := some pese', SubStreamID := ssid },
                    Payload := (src.drop pos3).take payloadLen }
  | _, _, _ => .err

/-- `parsePESHeader`: read and validate the PES start code, read the packet
length, compute the next packet position and dispatch on the stream id. -/
def parsePESHeader (src : List Nat) (pos : Nat) : SPPOutcome :=
  match src.get? pos, src.get? (pos + 1), src.get? (pos + 2), src.get? (pos + 3) with
  | some b0, some b1, some b2, some b3 =>
    let mph := [b0, b1, b2, b3]
    if ¬ mpegHeaderValidate mph then .err
    else
      match src.get? (pos + 4), src.get? (pos + 5) with
      | some l0, some l1 =>
        let pes : PESHeader := { MPH := mph, PacketLength := (l0, l1) }
        let nextPacketPosition : Int := (pos : Int) + 6 + (pes.GetPacketLength : Int)
        if mpegHeaderStreamID mph = 0xBD then
          match streamParsePESPrivateStream1Packet src (pos + 6) pes with
          | .panic => .panic
          | .err => .err
          | .ok packet => .ok (some packet) nextPacketPosition
        else .err
      | _, _ => .err
  | _, _, _, _ => .err

/-- `streamParsePackHeader`: read the 10 remaining pack-header bytes,
validate them, skip the stuffing bytes and parse the inner PES header. -/
def streamParsePackHeader (src : List Nat) (pos : Nat) (mph : List Nat) : SPPOutcome :=
  if src.length < pos + 10 then .err
  else
    let remaining := (src.drop pos).take 10
    if ¬ packHeaderValidate mph remaining then .err
    else parsePESHeader src (pos + 10 + packHeaderStuffingLength remaining)

/-- `streamParsePaddingStream`: read the 2-byte length and skip past it. -/
def streamParsePaddingStream (src : List Nat) (pos : Nat) : SPPOutcome :=
  match src.get? pos, src.get? (pos + 1) with
  | some l0, some l1 => .ok none ((pos : Int) + 2 + ((l0 <<< 8 ||| l1 : Nat) : Int))
  | _, _ => .err

/-- `StreamParsePacket`: one packetizer step at `pos`.  Hitting EOF on the
4-byte start-code read terminates cleanly with `nextAt = -1`; a valid start
code dispatches on the stream id (pack `0xBA`, padding `0xBE`, program end
`0xB9`, anything else an error). -/
def StreamParsePacket (src : List Nat) (pos : Nat) : SPPOutcome :=
  if src.length < pos + 4 then .ok none (-1)
  else
    let mph := [(src.get? pos).getD 0, (src.get? (pos + 1)).getD 0,
                (src.get? (pos + 2)).getD 0, (src.get? (pos + 3)).getD 0]
    if ¬ mpegHeaderValidate mph then .err
    else if mpegHeaderStreamID mph = 0xBA then streamParsePackHeader src (pos + 4) mph
    else if mpegHeaderStreamID mph = 0xBE then streamParsePaddingStream src (pos + 4)
    else if mpegHeaderStreamID mph = 0xB9 then .ok none (-1)
    else .err

/-!  ### SPU reassembly: the packet-concat pass of `Decode` (part_010)  -/

/-- The split-packet concatenation loop of `Decode`: a packet with nonzero
PTS starts a new subtitle, a packet with zero PTS is appended to
`subtitlesPackets[len(subtitlesPackets)-1]`.  `none` models a Go panic:
nil `Extension` pointer, a bad `PTS` slice length, or indexing position
`-1` of the empty accumulator. -/
def concatGo (acc : List PESPacket) : List PESPacket → Option (List PESPacket)
  | [] => some acc
  | pkt :: rest =>
    match pkt.Header.Extension with
    | none => none
    | some ext =>
      match ext.Data.ComputePTS with
      | none => none
      | some pts =>
        if pts ≠ 0 then concatGo (acc ++ [pkt]) rest
        else
          match acc.getLast? with
          | none => none
          | some currentSub =>
            concatGo
              (acc.dropLast ++ [{ currentSub with Payload := currentSub.Payload ++ pkt.Payload }])
              rest

/-- `concatPackets`: the packet-concat pass starting from the empty list. -/
def concatPackets (pkts : List PESPacket) : Option (List PESPacket) :=
  concatGo [] pkts

/-!  ### Subtitles and the `Decode` post-pass (part_010)  -/

/-- Output `Subtitle` timing (the image is irrelevant to the post-pass). -/
structure Subtitle where
  start : Int
  stop : Int
  deriving DecidableEq

/-- The body of the post-pass for the subtitle at position `index`:
when `sub.Start == sub.Stop`, the Go code guards the fix with
`index+1 < len(subtitles)` where `subtitles` is the **stream map**, so
`numStreams` is the number of streams, not the number of subtitles; it then
reads `streamSubs[index+1].Start` (panicking, `none`, when that is out of
range) and moves the stop only when the candidate exceeds the start. -/
def fixMissingStop (numStreams : Nat) (streamSubs : List Subtitle) (index : Nat)
    (sub : Subtitle) : Option Subtitle :=
  if sub.start = sub.stop then
    if index + 1 < numStreams then
      match streamSubs.get? (index + 1) with
      | none => none
      | some next =>
        let potentialStop := next.start - hundredMs
        if potentialStop > sub.start then some { sub with stop := potentialStop } else some sub
    else some sub
  else some sub

/-- Apply `fixMissingStop` to each position of one stream's subtitle list.
The Go loop mutates `streamSubs[index].Stop` in place, but every read of a
later element (`sub` and `streamSubs[index+1].Start`) sees the original
values — earlier iterations only modify `Stop` at strictly earlier indexes —
so passing the original list for the lookups is faithful. -/
def postPassGo (numStreams : Nat) (orig : List Subtitle) (index : Nat) :
    List Subtitle → Option (List Subtitle)
  | [] => some []
  | sub :: rest =>
    match fixMissingStop numStreams orig index sub with
    | none => none
    | some sub' =>
      match postPassGo numStreams orig (index + 1) rest with
      | none => none
      | some tail => some (sub' :: tail)

/-- The post-pass applied to one stream's list with the given stream count. -/
def postPassStream (numStreams : Nat) (subs : List Subtitle) : Option (List Subtitle) :=
  postPassGo numStreams subs 0 subs

/-- The post-pass over every stream (`numStreams` fixed to the map size). -/
def decodePostPassGo (numStreams : Nat) :
    List (Nat × List Subtitle) → Option (List (Nat × List Subtitle))
  | [] => some []
  | (sid, subs) :: rest =>
    match postPassStream numStreams subs with
    | none => none
    | some subs' =>
      match decodePostPassGo numStreams rest with
      | none => none
      | some tail => some ((sid, subs') :: tail)

/-- The `Decode` post-pass over the decoded stream map, modelled as an
association list.  `len(subtitles)` in the Go guard is the map length. -/
def decodePostPass (streams : List (Nat × List Subtitle)) :
    Option (List (Nat × List Subtitle)) :=
  decodePostPassGo streams.length streams

/-!  ### SPU control sequences (`def_subtitle.go` / part_004)  -/

/-- `ControlSequence` with its optional command arguments. -/
structure ControlSequence where
  Date : Nat × Nat := (0, 0)
  ForceDisplaying : Bool := false
  StartDate : Bool := false
  StopDate : Bool := false
  PaletteColors : Option (Nat × Nat) := none
  AlphaChannels : Option (Nat × Nat) := none
  Coordinates : Option (List Nat) := none
  RLEOffsets : Option (List Nat) := none
  deriving DecidableEq

/-- Result of the command loop inside `parseCTRLSeq`. -/
inductive CmdsResult where
  | ok (cs : ControlSequence) (index : Nat)
  | err
  deriving DecidableEq

/-- The command loop of `parseCTRLSeq`: `rest` is `sequences[index:]`, so a
bounds check `index + k > len(sequences)` of the source is `rest` having
fewer than `k` elements. -/
def parseCmds (cs : ControlSequence) (index : Nat) : List Nat → CmdsResult
  | [] => .err
  | cmd :: rest =>
    if cmd = 0x00 then parseCmds { cs with ForceDisplaying := true } (index + 1) rest
    else if cmd = 0x01 then parseCmds { cs with StartDate := true } (index + 1) rest
    else if cmd = 0x02 then parseCmds { cs with StopDate := true } (index + 1) rest
    else if cmd = 0x03 then
      match rest with
      | a0 :: a1 :: rest2 => parseCmds { cs with PaletteColors := some (a0, a1) } (index + 3) rest2
      | _ => .err
    else if cmd = 0x04 then
      match rest with
      | a0 :: a1 :: rest2 => parseCmds { cs with AlphaChannels := some (a0, a1) } (index + 3) rest2
      | _ => .err
    else if cmd = 0x05 then
      match rest with
      | a0 :: a1 :: a2 :: a3 :: a4 :: a5 :: rest2 =>
        parseCmds { cs with Coordinates := some [a0, a1, a2, a3, a4, a5] } (index + 7) rest2
      | _ => .err
    else if cmd = 0x06 then
      match rest with
      | a0 :: a1 :: a2 :: a3 :: rest2 =>
        parseCmds { cs with RLEOffsets := some [a0, a1, a2, a3] } (index + 5) rest2
      | _ => .err
    else if cmd = 0xFF then .ok cs (index + 1)
    else .err

/-- Result of `parseCTRLSeq`: the sequence, its `next_offset` and the number
of bytes read, or an error. -/
inductive SeqResult where
  | ok (cs : ControlSequence) (nextOffset : Nat) (read : Nat)
  | err
  deriving DecidableEq

/-- `parseCTRLSeq`: needs 4 bytes for date and next offset, then walks the
one-byte commands until `0xFF`. -/
def parseCTRLSeq : List Nat → SeqResult
  | b0 :: b1 :: b2 :: b3 :: rest =>
    match parseCmds { Date := (b0, b1) } 4 rest with
    | .ok cs index => .ok cs (b2 <<< 8 ||| b3) index
    | .err => .err
  | _ => .err

/-- Outcome of the control-sequence chain walk. -/
inductive CtrlOutcome where
  | ok (seqs : List ControlSequence)
  | err
  | panic
  deriving DecidableEq

/-- The chain-walk loop of `parseCTRLSeqs`, with fuel: `none` means the loop
was still running when the fuel ran out (the Go loop has no iteration bound).
Slicing `sequences[nextStart:]` panics when `nextStart` is negative or past
the end; the walk stops only when `nextOffset - baseOffset` equals the
current `nextStart`, after which the remaining bytes must be `0xFF`. -/
def ctrlLoop (sequences : List Nat) (baseOffset : Int) :
    Nat → Int → List ControlSequence → Option CtrlOutcome
  | 0, _, _ => none
  | fuel + 1, nextStart, acc =>
    if nextStart < 0 ∨ (sequences.length : Int) < nextStart then some .panic
    else
      match parseCTRLSeq (sequences.drop nextStart.toNat) with
      | .err => some .err
      | .ok cs nextOffset read =>
        let acc' := acc ++ [cs]
        if (nextOffset : Int) - baseOffset = nextStart then
          if ((sequences.drop (nextStart + (read : Int)).toNat).all (fun b => b == 0xFF)) then
            some (.ok acc')
          else some .err
        else ctrlLoop sequences baseOffset fuel ((nextOffset : Int) - baseOffset) acc'

/-- `parseCTRLSeqs` with fuel. -/
def parseCTRLSeqs (fuel : Nat) (sequences : List Nat) (baseOffset : Int) : Option CtrlOutcome :=
  ctrlLoop sequences baseOffset fuel 0 []

/-- A control chain whose two sequences point at each other
(`next_offset` 8 at offset 0 and `next_offset` 0 at offset 8): a cycle that
is not a self-loop. -/
def cycSeq : List Nat :=
  [0x00, 0x00, 0x00, 0x08, 0xFF, 0xFF, 0xFF, 0xFF, 0x00, 0x00, 0x00, 0x00, 0xFF]

/-- The control sequence parsed at both offsets of `cycSeq`. -/
def cycCS : ControlSequence := { Date := (0, 0) }

/-!  ### SPU extraction (`extractRAWSubtitle`)  -/

/-- Outcome of `extractRAWSubtitle`: pixel data and control sequences, an
error return, or a Go runtime panic. -/
inductive ExtractOutcome where
  | ok (data : List Nat) (seqs : List ControlSequence)
  | err
  | panic
  deriving DecidableEq

/-- `extractRAWSubtitle` over the reassembled SPU payload.  Reads bytes 0..3
(panicking when absent), checks the size header against the payload length,
checks `dataSize > len - 2`, then slices `Payload[4:dataSize]` — a Go slice
expression that panics when `dataSize < 4` — and parses the control chain. -/
def extractRAWSubtitle (fuel : Nat) (payload : List Nat) : Option ExtractOutcome :=
  match payload.get? 0, payload.get? 1 with
  | some p0, some p1 =>
    let size := p0 <<< 8 ||| p1
    if payload.length ≠ size then some .err
    else
      match payload.get? 2, payload.get? 3 with
      | some p2, some p3 =>
        let dataSize := p2 <<< 8 ||| p3
        if payload.length - 2 < dataSize then some .err
        else if dataSize < 4 then some .panic
        else
          match parseCTRLSeqs fuel (payload.drop dataSize) (dataSize : Int) with
          | none => none
          | some .panic => some .panic
          | some .err => some .err
          | some (.ok seqs) => some (.ok ((payload.drop 4).take (dataSize - 4)) seqs)
      | _, _ => some .panic
  | _, _ => some .panic

/-!  ### Palette and alpha nibble extraction (part_004, current draft)  -/

/-- `ControlSequencePalette.GetIDs`: `colorsIdx[3]` is the high nibble of the
first argument byte, …, `colorsIdx[0]` the low nibble of the second. -/
def getIDs (csp0 csp1 : Nat) : Fin 4 → Nat
  | 0 => csp1 &&& 0b00001111
  | 1 => (csp1 &&& 0b11110000) >>> 4
  | 2 => csp0 &&& 0b00001111
  | 3 => (csp0 &&& 0b11110000) >>> 4

/-- The integer nibbles extracted by `ControlSequenceAlphaChannels.GetRatios`
(the Go code multiplies each by the constant `1/16` as a `float64`; the
nibble extraction is the integer part modelled here). -/
def getAlphaNibbles (csac0 csac1 : Nat) : Fin 4 → Nat
  | 0 => csac1 &&& 0b00001111
  | 1 => (csac1 &&& 0b11110000) >>> 4
  | 2 => csac0 &&& 0b00001111
  | 3 => (csac0 &&& 0b11110000) >>> 4

/-- The spec-side nibble positions: index 0 is the low nibble of the second
byte, index 1 its high nibble, index 2 the low nibble of the first byte,
index 3 its high nibble. -/
def nibbleAt (b0 b1 : Nat) : Fin 4 → Nat
  | 0 => b1 % 16
  | 1 => b1 / 16 % 16
  | 2 => b0 % 16
  | 3 => b0 / 16 % 16

/-!  ### The RLE decoder (part_004, current draft)  -/

/-- `rlePixel` (the Go field `repeat` is a Lean keyword, hence `repeatVal`). -/
structure RLEPixel where
  color : Nat
  repeatVal : Nat
  deriving DecidableEq

/-- `nibbleIterator`: nibble-aligned cursor over a byte slice. -/
structure NibbleIterator where
  data : List Nat
  index : Nat := 0
  readLow : Bool := false
  deriving DecidableEq

/-- `nibbleIterator.Next`: high nibble first, then low nibble, advancing the
byte index after the low read; `none` when `index >= len(data)`. -/
def NibbleIterator.next (ni : NibbleIterator) : Option (Nat × NibbleIterator) :=
  match ni.data.get? ni.index with
  | none => none
  | some b =>
    if ni.readLow then some (b &&& 0b00001111, { ni with index := ni.index + 1, readLow := false })
    else some ((b &&& 0b11110000) >>> 4, { ni with readLow := true })

/-- Result of `decodeRLE`: a pixel or an error (the Go code also returns a
zero pixel with a nil error when the stream ends inside an all-zero prefix). -/
inductive RLEResult where
  | ok (p : RLEPixel)
  | err
  deriving DecidableEq

/-- `decodeRLE`: variable-length codeword decoder over the nibble iterator,
returning the result together with the advanced iterator. -/
def decodeRLE (nibbles : NibbleIterator) : RLEResult × NibbleIterator :=
  match nibbles.next with
  | none => (.err, nibbles)
  | some (firstNibble, n1) =>
    if firstNibble &&& 0b1100 ≠ 0 then
      (.ok { repeatVal := (firstNibble &&& 0b1100) >>> 2, color := firstNibble &&& 0b0011 }, n1)
    else
      match n1.next with
      | none =>
        if firstNibble ≠ 0 then (.err, n1) else (.ok { repeatVal := 0, color := 0 }, n1)
      | some (secondNibble, n2) =>
        if firstNibble ≠ 0 then
          (.ok { repeatVal := (firstNibble &&& 0b0011) <<< 2 ||| (secondNibble &&& 0b1100) >>> 2,
                 color := secondNibble &&& 0b0011 }, n2)
        else
          match n2.next with
          | none =>
            if firstNibble ≠ 0 ∨ secondNibble ≠ 0 then (.err, n2)
            else (.ok { repeatVal := 0, color := 0 }, n2)
          | some (thirdNibble, n3) =>
            if secondNibble &&& 0b1100 ≠ 0 then
              (.ok { repeatVal := secondNibble <<< 2 ||| (thirdNibble &&& 0b1100) >>> 2,
                     color := thirdNibble &&& 0b0011 }, n3)
            else
              match n3.next with
              | none =>
                if firstNibble ≠ 0 ∨ secondNibble ≠ 0 ∨ thirdNibble ≠ 0 then (.err, n3)
                else (.ok { repeatVal := 0, color := 0 }, n3)
              | some (fourthNibble, n4) =>
                (.ok { repeatVal :=
                         secondNibble <<< 6 ||| thirdNibble <<< 2 |||
                           (fourthNibble &&& 0b1100) >>> 2,
                       color := fourthNibble &&& 0b0011 }, n4)

/-- The value of an encoded RLE word assembled from its nibbles, MSB first. -/
def rleWord (ns : List Nat) : Nat := ns.foldl (fun acc n => acc * 16 + n) 0

/-- The run-length field `rr…` of an encoded word: every bit above `cc`. -/
def rleRun (w : Nat) : Nat := w >>> 2

/-- The 2-bit color field `cc` of an encoded word. -/
def rleColor (w : Nat) : Nat := w &&& 0b11

/-!  ## Helper lemmas  -/

theorem shiftLeft_or_eq_add (a b k : Nat) (h : b < 2 ^ k) : a <<< k ||| b = a * 2 ^ k + b := by
  have hdiv : (a <<< k ||| b) / 2 ^ k = a := by
    have hsr : (a <<< k ||| b) >>> k = a <<< k >>> k ||| b >>> k := by
      apply Nat.eq_of_testBit_eq
      intro i
      simp [Nat.testBit_shiftRight, Nat.testBit_or]
    have ha : a <<< k >>> k = a := by
      rw [Nat.shiftLeft_eq, Nat.shiftRight_eq_div_pow]
      exact Nat.mul_div_cancel a (Nat.two_pow_pos k)
    have hb : b >>> k = 0 := by
      rw [Nat.shiftRight_eq_div_pow]
      exact Nat.div_eq_of_lt h
    calc (a <<< k ||| b) / 2 ^ k = (a <<< k ||| b) >>> k := by
          rw [Nat.shiftRight_eq_div_pow]
      _ = a := by rw [hsr, ha, hb, Nat.or_zero]
  have hmod : (a <<< k ||| b) % 2 ^ k = b := by
    rw [← Nat.and_pow_two_sub_one_eq_mod]
    apply Nat.eq_of_testBit_eq
    intro i
    simp only [Nat.testBit_land, Nat.testBit_or, Nat.testBit_two_pow_sub_one,
      Nat.testBit_shiftLeft]
    by_cases hik : i < k
    · have hki : ¬ i ≥ k := by omega
      simp [hik, hki]
    · have hbf : b.testBit i = false :=
        Nat.testBit_lt_two_pow
          (lt_of_lt_of_le h (Nat.pow_le_pow_right (by norm_num) (by omega)))
      simp [hik, hbf]
  have hdm := Nat.div_add_mod (a <<< k ||| b) (2 ^ k)
  rw [hdiv, hmod] at hdm
  rw [← hdm]
  ring

set_option maxRecDepth 100000 in
theorem and14_shiftRight_eq : ∀ b < 256, (b &&& 14) >>> 1 = (b >>> 1) % 8 := by decide

set_option maxRecDepth 100000 in
theorem and254_shiftRight_eq : ∀ b < 256, (b &&& 254) >>> 1 = (b >>> 1) % 128 := by decide

set_option maxRecDepth 100000 in
theorem and15_eq_mod : ∀ b < 256, b &&& 15 = b % 16 := by decide

set_option maxRecDepth 100000 in
theorem and240_shiftRight_eq : ∀ b < 256, (b &&& 240) >>> 4 = b / 16 % 16 := by decide

/-!  ## Claim theorems  -/

/-- C6: for every 5-byte PTS field (byte values), `ComputePTS` returns
`ticks * 1s / 90000` where `ticks` places bits 3..1 of byte 0 at result bits
32..30, byte 1 at bits 29..22, bits 7..1 of byte 2 at bits 21..15, byte 3 at
bits 14..7 and bits 7..1 of byte 4 at bits 6..0; for an absent (empty) PTS
field it returns 0. -/
theorem computePTS_spec (b0 b1 b2 b3 b4 : Nat)
    (h0 : b0 < 256) (h1 : b1 < 256) (h2 : b2 < 256) (h3 : b3 < 256) (h4 : b4 < 256) :
    PESExtensionData.ComputePTS { PTS := [b0, b1, b2, b3, b4] } =
      some (ptsTicksSpec b0 b1 b2 b3 b4 * second / PTSDTSClockFrequency) ∧
    PESExtensionData.ComputePTS { PTS := [] } = some 0 := by
  have key : ((b0 &&& 0b00001110) >>> 1) <<< 30 ||| b1 <<< 22 |||
      ((b2 &&& 0b11111110) >>> 1) <<< 15 ||| b3 <<< 7 ||| ((b4 &&& 0b11111110) >>> 1) =
      ptsTicksSpec b0 b1 b2 b3 b4 := by
    have e0 : (b0 &&& 14) >>> 1 = (b0 >>> 1) % 8 := and14_shiftRight_eq b0 h0
    have e2 : (b2 &&& 254) >>> 1 = (b2 >>> 1) % 128 := and254_shiftRight_eq b2 h2
    have e4 : (b4 &&& 254) >>> 1 = (b4 >>> 1) % 128 := and254_shiftRight_eq b4 h4
    have m0 : (b0 >>> 1) % 8 < 8 := Nat.mod_lt _ (by norm_num)
    have m2 : (b2 >>> 1) % 128 < 128 := Nat.mod_lt _ (by norm_num)
    have m4 : (b4 >>> 1) % 128 < 128 := Nat.mod_lt _ (by norm_num)
    have p7 : (2 : Nat) ^ 7 = 128 := by norm_num
    have p15 : (2 : Nat) ^ 15 = 32768 := by norm_num
    have p22 : (2 : Nat) ^ 22 = 4194304 := by norm_num
    have p30 : (2 : Nat) ^ 30 = 1073741824 := by norm_num
    rw [e0, e2, e4, Nat.or_assoc, Nat.or_assoc, Nat.or_assoc]
    rw [shiftLeft_or_eq_add b3 ((b4 >>> 1) % 128) 7 (by omega)]
    rw [shiftLeft_or_eq_add ((b2 >>> 1) % 128) (b3 * 2 ^ 7 + (b4 >>> 1) % 128) 15 (by omega)]
    rw [shiftLeft_or_eq_add b1
      ((b2 >>> 1) % 128 * 2 ^ 15 + (b3 * 2 ^ 7 + (b4 >>> 1) % 128)) 22 (by omega)]
    rw [shiftLeft_or_eq_add ((b0 >>> 1) % 8)
      (b1 * 2 ^ 22 + ((b2 >>> 1) % 128 * 2 ^ 15 + (b3 * 2 ^ 7 + (b4 >>> 1) % 128))) 30
      (by omega)]
    simp only [ptsTicksSpec, bitField, Nat.shiftRight_zero]
    norm_num
    omega
  constructor
  · show some ((((b0 &&& 0b00001110) >>> 1) <<< 30 ||| b1 <<< 22 |||
        ((b2 &&& 0b11111110) >>> 1) <<< 15 ||| b3 <<< 7 |||
        ((b4 &&& 0b11111110) >>> 1)) * second / PTSDTSClockFrequency) = _
    rw [key]
  · rfl

/-- Witness for C6 at a concrete PTS field. -/
theorem computePTS_spec_witness :
    PESExtensionData.ComputePTS { PTS := [0x21, 0x00, 0x01, 0x00, 0x01] } =
      some (ptsTicksSpec 0x21 0x00 0x01 0x00 0x01 * second / PTSDTSClockFrequency) ∧
    PESExtensionData.ComputePTS { PTS := [] } = some 0 :=
  computePTS_spec 0x21 0x00 0x01 0x00 0x01 (by decide) (by decide) (by decide) (by decide)
    (by decide)

/-- C10: `ComputeDTS` returns exactly what `ComputePTS` returns — both read
only the `PTS` byte field, `ComputeDTS` never reads `DTS` (the two values can
have arbitrary, different `DTS` fields), and both return 0 on an empty `PTS`. -/
theorem computeDTS_eq_computePTS (d d' : PESExtensionData) (h : d.PTS = d'.PTS) :
    d.ComputeDTS = d'.ComputePTS ∧ (d.PTS = [] → d.ComputeDTS = some 0) := by
  constructor
  · unfold PESExtensionData.ComputeDTS PESExtensionData.ComputePTS
    rw [h]
  · intro h0
    unfold PESExtensionData.ComputeDTS
    rw [h0]

/-- Witness for C10: two values sharing a `PTS` but with different `DTS`. -/
theorem computeDTS_eq_computePTS_witness :
    PESExtensionData.ComputeDTS { PTS := [], DTS := [1, 2, 3, 4, 5] } =
      PESExtensionData.ComputePTS { PTS := [], DTS := [9] } ∧
    PESExtensionData.ComputeDTS { PTS := [], DTS := [1, 2, 3, 4, 5] } = some 0 :=
  ⟨(computeDTS_eq_computePTS { PTS := [], DTS := [1, 2, 3, 4, 5] }
      { PTS := [], DTS := [9] } rfl).1,
   (computeDTS_eq_computePTS { PTS := [], DTS := [1, 2, 3, 4, 5] }
      { PTS := [], DTS := [9] } rfl).2 rfl⟩

/-- C9: palette indices and alpha nibbles pair by position — for each
`i : Fin 4`, `GetIDs()[i]` and the alpha nibble of `GetRatios()[i]` are
extracted from the same nibble position of their respective 2-byte arguments,
and index 0 is the low nibble of the second byte of each. -/
theorem palette_alpha_nibble_pairing (c0 c1 a0 a1 : Nat)
    (hc0 : c0 < 256) (hc1 : c1 < 256) (ha0 : a0 < 256) (ha1 : a1 < 256) :
    (∀ i : Fin 4, getIDs c0 c1 i = nibbleAt c0 c1 i ∧
      getAlphaNibbles a0 a1 i = nibbleAt a0 a1 i) ∧
    nibbleAt c0 c1 0 = c1 % 16 ∧ nibbleAt a0 a1 0 = a1 % 16 := by
  refine ⟨?_, rfl, rfl⟩
  intro i
  fin_cases i <;>
    simp [getIDs, getAlphaNibbles, nibbleAt, and15_eq_mod c0 hc0, and15_eq_mod c1 hc1,
      and15_eq_mod a0 ha0, and15_eq_mod a1 ha1, and240_shiftRight_eq c0 hc0,
      and240_shiftRight_eq c1 hc1, and240_shiftRight_eq a0 ha0, and240_shiftRight_eq a1 ha1]

/-- Witness for C9 at concrete argument bytes, position 0. -/
theorem palette_alpha_nibble_pairing_witness :
    getIDs 0x12 0x34 0 = nibbleAt 0x12 0x34 0 ∧
    getAlphaNibbles 0xAB 0xCD 0 = nibbleAt 0xAB 0xCD 0 :=
  (palette_alpha_nibble_pairing 0x12 0x34 0xAB 0xCD (by decide) (by decide) (by decide)
    (by decide)).1 0

/-- C1 (code-bug evaluation): the `Decode` post-pass guards the fix with
`index+1 < len(subtitles)` where `subtitles` is the stream **map**, so for a
single-stream file with two subtitles where `sub[0]` has `stop == start`, the
stop is left at its start value instead of becoming
`sub[1].start − 100 ms = 900000000`. -/
theorem decodePostPass_singleStream_eval :
    decodePostPass [(0, [{ start := 0, stop := 0 },
        { start := 1000000000, stop := 2000000000 }])] =
      some [(0, [{ start := 0, stop := 0 },
        { start := 1000000000, stop := 2000000000 }])] ∧
    (1000000000 : Int) - hundredMs = 900000000 ∧ (0 : Int) ≠ 900000000 := by
  refine ⟨rfl, rfl, by decide⟩

/-- C3 (code bug): any packet list whose first private-stream-1 packet has a
zero PTS makes the concat pass of `Decode` index `subtitlesPackets[-1]`,
a Go runtime panic (`none`), not an error return. -/
theorem concatPackets_dangling_continuation (pkt : PESPacket) (rest : List PESPacket)
    (ext : PESExtension) (hext : pkt.Header.Extension = some ext)
    (hpts : ext.Data.ComputePTS = some 0) :
    concatPackets (pkt :: rest) = none := by
  simp [concatPackets, concatGo, hext, hpts]

/-- Witness for C3: a single continuation packet with an empty PTS field. -/
theorem concatPackets_dangling_continuation_witness :
    concatPackets [{ Header := { Extension := some {} }, Payload := [1, 2, 3] }] = none :=
  concatPackets_dangling_continuation
    { Header := { Extension := some {} }, Payload := [1, 2, 3] } [] {} rfl rfl

/-- C4 (code-bug evaluation): an SPU payload of length 6 whose size header
matches (`size = 6`) but whose `data_offset` is 0 (< 4) makes
`extractRAWSubtitle` panic at the slice expression `Payload[4:0]` instead of
returning a `SpuLengthMismatch` error. -/
theorem extractRAWSubtitle_small_offset_panics :
    ∀ fuel, extractRAWSubtitle fuel [0x00, 0x06, 0x00, 0x00, 0xFF, 0xFF] = some .panic :=
  fun _ => rfl

/-- Witness for C4 at a concrete fuel value. -/
theorem extractRAWSubtitle_small_offset_panics_witness :
    extractRAWSubtitle 3 [0x00, 0x06, 0x00, 0x00, 0xFF, 0xFF] = some .panic :=
  extractRAWSubtitle_small_offset_panics 3

/-- C7 (code-bug evaluation): with only the second-extension flag set and a
well-formed extension-data area (`headers = 0x0F`, a 1-byte "PES extension 2"
and `0xFF` padding), parsing panics: the Go loop writes the extension-2 bytes
into the never-allocated `Data.PSTD` slice instead of the freshly allocated
`Data.PESExtensionSecond`.  A non-`0xFF` trailing byte, by contrast, does
produce the invalid-padding error. -/
theorem parseExtensionData_ext2_panics :
    parseExtensionData { Header0 := 0x81, Header1 := 0x01, Header2 := 5 }
      [0x0F, 0x01, 0x00, 0xFF, 0xFF] = .panic ∧
    parseExtensionData { Header0 := 0x81, Header1 := 0x00, Header2 := 1 }
      [0x00] = .err .invalidPadding :=
  ⟨rfl, rfl⟩

theorem ctrlLoop_cycSeq_none (fuel : Nat) :
    (∀ acc, ctrlLoop cycSeq 0 fuel 0 acc = none) ∧
    (∀ acc, ctrlLoop cycSeq 0 fuel 8 acc = none) := by
  induction fuel with
  | zero => exact ⟨fun _ => rfl, fun _ => rfl⟩
  | succ n ih =>
    refine ⟨fun acc => ?_, fun acc => ?_⟩
    · have hstep : ctrlLoop cycSeq 0 (n + 1) 0 acc = ctrlLoop cycSeq 0 n 8 (acc ++ [cycCS]) :=
        rfl
      rw [hstep]
      exact ih.2 _
    · have hstep : ctrlLoop cycSeq 0 (n + 1) 8 acc = ctrlLoop cycSeq 0 n 0 (acc ++ [cycCS]) :=
        rfl
      rw [hstep]
      exact ih.1 _

/-- C5 (code bug): the control-chain walk of `parseCTRLSeqs` has no visited
set and no iteration cap; on `cycSeq` — two well-formed sequences whose
`next_offset`s point at each other, a cycle that is not a self-loop — the Go
loop never terminates: for every fuel bound the modelled loop is still
running (`none`), instead of rejecting the cycle after at most
`spu_len / 4` iterations. -/
theorem parseCTRLSeqs_cycle_diverges : ∀ fuel, parseCTRLSeqs fuel cycSeq 0 = none := by
  intro fuel
  exact (ctrlLoop_cycSeq_none fuel).1 []

/-- Witness for C5 at a concrete fuel value. -/
theorem parseCTRLSeqs_cycle_diverges_witness : parseCTRLSeqs 5 cycSeq 0 = none :=
  parseCTRLSeqs_cycle_diverges 5

set_option maxRecDepth 100000 in
theorem rleRun_one_nibble : ∀ n < 16, (n &&& 12) >>> 2 = n >>> 2 := by decide

set_option maxRecDepth 100000 in
theorem and12_eq_zero_lt : ∀ n < 16, n &&& 12 = 0 → n < 4 := by decide

set_option maxRecDepth 100000 in
theorem rleRun_two_nibble :
    ∀ a < 4, ∀ b < 16, (a &&& 3) <<< 2 ||| (b &&& 12) >>> 2 = (16 * a + b) >>> 2 := by decide

set_option maxRecDepth 100000 in
theorem rleRun_three_nibble :
    ∀ a < 16, ∀ b < 16, a <<< 2 ||| (b &&& 12) >>> 2 = (16 * a + b) >>> 2 := by decide

set_option maxRecDepth 1000000 in
theorem rleRun_four_nibble :
    ∀ a < 4, ∀ b < 16, ∀ c < 16,
      a <<< 6 ||| b <<< 2 ||| (c &&& 12) >>> 2 = (256 * a + 16 * b + c) >>> 2 := by decide

theorem and3_add_sixteen_mul (a b : Nat) : (16 * a + b) &&& 3 = b &&& 3 := by
  have h3 : (3 : Nat) = 2 ^ 2 - 1 := by norm_num
  rw [h3, Nat.and_pow_two_sub_one_eq_mod, Nat.and_pow_two_sub_one_eq_mod]
  omega

/-- C2 (counterexample): on the nibble stream `0x0, 0x4, 0x1, 0x0` (bytes
`0x04 0x10`) the first nibble is all zero and the second has bits 3..2
nonzero, so the claim's table prescribes a 2-nibble codeword
`00 rr rr cc = 0b00000100` (run 1, color 0, cursor advanced by two nibbles);
`decodeRLE` instead consumes three nibbles and returns run 16, color 1. -/
theorem decodeRLE_claimTable_counterexample :
    decodeRLE { data := [0x04, 0x10] } =
      (.ok { color := 1, repeatVal := 16 },
        { data := [0x04, 0x10], index := 1, readLow := true }) ∧
    decodeRLE { data := [0x04, 0x10] } ≠
      (.ok { color := 0, repeatVal := 1 },
        { data := [0x04, 0x10], index := 1, readLow := false }) := by
  decide

/-- C2 (amended): `decodeRLE` consumes 1 nibble when the first nibble has
bits 3..2 nonzero, 2 nibbles when the first nibble is nonzero with bits 3..2
zero, 3 nibbles when the first nibble is all zero and the second has bits
3..2 nonzero, and 4 nibbles when the first two conditions fail and the second
nibble also has bits 3..2 zero; in every case the returned run length and
color are the `rr…` and `cc` fields of the encoded word formed by the
consumed nibbles. -/
theorem decodeRLE_codeword_spec
    (st st1 st2 st3 st4 : NibbleIterator) (n1 n2 n3 n4 : Nat)
    (b1 : n1 < 16) (b2 : n2 < 16) (b3 : n3 < 16) (b4 : n4 < 16)
    (s1 : st.next = some (n1, st1)) (s2 : st1.next = some (n2, st2))
    (s3 : st2.next = some (n3, st3)) (s4 : st3.next = some (n4, st4)) :
    decodeRLE st =
      if n1 &&& 0b1100 ≠ 0 then
        (.ok { color := rleColor (rleWord [n1]), repeatVal := rleRun (rleWord [n1]) }, st1)
      else if n1 ≠ 0 then
        (.ok { color := rleColor (rleWord [n1, n2]),
               repeatVal := rleRun (rleWord [n1, n2]) }, st2)
      else if n2 &&& 0b1100 ≠ 0 then
        (.ok { color := rleColor (rleWord [n1, n2, n3]),
               repeatVal := rleRun (rleWord [n1, n2, n3]) }, st3)
      else
        (.ok { color := rleColor (rleWord [n1, n2, n3, n4]),
               repeatVal := rleRun (rleWord [n1, n2, n3, n4]) }, st4) := by
  simp only [decodeRLE, s1, s2, s3, s4]
  split_ifs with hc1 hc2 hc3
  · have hw : rleWord [n1] = n1 := by simp [rleWord]
    simp only [hw, rleRun, rleColor]
    rw [rleRun_one_nibble n1 b1]
  · have hw : rleWord [n1, n2] = 16 * n1 + n2 := by
      simp only [rleWord, List.foldl]
      ring
    have hlt : n1 < 4 := and12_eq_zero_lt n1 b1 (not_not.mp hc1)
    simp only [hw, rleRun, rleColor]
    rw [rleRun_two_nibble n1 hlt n2 b2, and3_add_sixteen_mul n1 n2]
  · have hn1 : n1 = 0 := not_not.mp hc2
    subst hn1
    have hw : rleWord [0, n2, n3] = 16 * n2 + n3 := by
      simp only [rleWord, List.foldl]
      ring
    simp only [hw, rleRun, rleColor]
    rw [rleRun_three_nibble n2 b2 n3 b3, and3_add_sixteen_mul n2 n3]
  · have hn1 : n1 = 0 := not_not.mp hc2
    subst hn1
    have hn2 : n2 < 4 := and12_eq_zero_lt n2 b2 (not_not.mp hc3)
    have hw : rleWord [0, n2, n3, n4] = 256 * n2 + 16 * n3 + n4 := by
      simp only [rleWord, List.foldl]
      ring
    simp only [hw, rleRun, rleColor]
    rw [rleRun_four_nibble n2 hn2 n3 b3 n4 b4,
      (by ring : 256 * n2 + 16 * n3 + n4 = 16 * (16 * n2 + n3) + n4),
      and3_add_sixteen_mul (16 * n2 + n3) n4]

/-- Witness for C2 at the concrete bytes `0x12 0x34` (nibbles 1,2,3,4): a
2-nibble codeword with word `0x12`, run 4, color 2. -/
theorem decodeRLE_codeword_spec_witness :
    decodeRLE { data := [0x12, 0x34] } =
      (.ok { color := 2, repeatVal := 4 },
        { data := [0x12, 0x34], index := 1, readLow := false }) :=
  (decodeRLE_codeword_spec
    { data := [0x12, 0x34] }
    { data := [0x12, 0x34], index := 0, readLow := true }
    { data := [0x12, 0x34], index := 1, readLow := false }
    { data := [0x12, 0x34], index := 1, readLow := true }
    { data := [0x12, 0x34], index := 2, readLow := false }
    1 2 3 4 (by decide) (by decide) (by decide) (by decide)
    (by decide) (by decide) (by decide) (by decide)).trans (by decide)

set_option maxRecDepth 100000 in
theorem mpegValidate_marker : ∀ i < 256, mpegHeaderValidate [0, 0, 1, i] = true := by decide

theorem streamID_concrete (i : Nat) : mpegHeaderStreamID [0, 0, 1, i] = i := rfl

/-- C8: one packetizer step terminates cleanly (no error, stop marker `-1`)
when the 4-byte start-code read hits EOF, and likewise on stream id `0xB9`
(program end); any valid start code whose stream id is not `0xBA`, `0xBE` or
`0xB9` yields an error. -/
theorem streamParsePacket_boundary_spec (src : List Nat) (pos id : Nat) (rest : List Nat) :
    (src.length < pos + 4 → StreamParsePacket src pos = .ok none (-1)) ∧
    (src.drop pos = 0x00 :: 0x00 :: 0x01 :: 0xB9 :: rest →
      StreamParsePacket src pos = .ok none (-1)) ∧
    (id < 256 → id ≠ 0xBA → id ≠ 0xBE → id ≠ 0xB9 →
      src.drop pos = 0x00 :: 0x00 :: 0x01 :: id :: rest →
      StreamParsePacket src pos = .err) := by
  refine ⟨fun hlen => ?_, fun hdrop => ?_, fun hid hba hbe hb9 hdrop => ?_⟩
  · simp only [StreamParsePacket, if_pos hlen]
  · have hlen4 : ¬ src.length < pos + 4 := by
      have hl := congrArg List.length hdrop
      simp [List.length_drop] at hl
      omega
    have g0 : src[pos]? = some 0x00 := by
      have h := List.getElem?_drop src pos 0
      rw [hdrop] at h
      simpa using h.symm
    have g1 : src[pos + 1]? = some 0x00 := by
      have h := List.getElem?_drop src pos 1
      rw [hdrop] at h
      simpa using h.symm
    have g2 : src[pos + 2]? = some 0x01 := by
      have h := List.getElem?_drop src pos 2
      rw [hdrop] at h
      simpa using h.symm
    have g3 : src[pos + 3]? = some 0xB9 := by
      have h := List.getElem?_drop src pos 3
      rw [hdrop] at h
      simpa using h.symm
    have hv : mpegHeaderValidate [0x00, 0x00, 0x01, 0xB9] = true := by decide
    simp [StreamParsePacket, if_neg hlen4, g0, g1, g2, g3, hv, streamID_concrete]
  · have hlen4 : ¬ src.length < pos + 4 := by
      have hl := congrArg List.length hdrop
      simp [List.length_drop] at hl
      omega
    have g0 : src[pos]? = some 0x00 := by
      have h := List.getElem?_drop src pos 0
      rw [hdrop] at h
      simpa using h.symm
    have g1 : src[pos + 1]? = some 0x00 := by
      have h := List.getElem?_drop src pos 1
      rw [hdrop] at h
      simpa using h.symm
    have g2 : src[pos + 2]? = some 0x01 := by
      have h := List.getElem?_drop src pos 2
      rw [hdrop] at h
      simpa using h.symm
    have g3 : src[pos + 3]? = some id := by
      have h := List.getElem?_drop src pos 3
      rw [hdrop] at h
      simpa using h.symm
    have hv : mpegHeaderValidate [0x00, 0x00, 0x01, id] = true := mpegValidate_marker id hid
    simp [StreamParsePacket, if_neg hlen4, g0, g1, g2, g3, hv, streamID_concrete,
      hba, hbe, hb9]

/-- Witness for C8: EOF at position 0 of an empty source, program end, and an
audio stream id `0xC0`. -/
theorem streamParsePacket_boundary_witness :
    StreamParsePacket [] 0 = .ok none (-1) ∧
    StreamParsePacket [0x00, 0x00, 0x01, 0xB9] 0 = .ok none (-1) ∧
    StreamParsePacket [0x00, 0x00, 0x01, 0xC0] 0 = .err :=
  ⟨(streamParsePacket_boundary_spec [] 0 0 []).1 (by decide),
   (streamParsePacket_boundary_spec [0x00, 0x00, 0x01, 0xB9] 0 0 []).2.1 rfl,
   (streamParsePacket_boundary_spec [0x00, 0x00, 0x01, 0xC0] 0 0xC0 []).2.2
     (by decide) (by decide) (by decide) (by decide) rfl⟩

end VobSub
